import Mathlib

/-!
# Verification of the availability state-diffing and notification core

Shallow embedding of the state-management and cooldown logic of the
reservation-checker repository: the StateManager class (state-manager source
file) and the cooldown helpers of check.js.  File input/output is made
explicit: the on-disk JSON state is a value of type PersistedState, a read of
the state file is modelled by an Option parameter, timestamps are explicit
arguments (milliseconds since the epoch as integers for the cooldown logic,
ISO strings for the lastCheck field), and each method that calls saveState is
flagged as persisting.
-/

/-- A single bookable time window as produced by the scraper:
fields date, startTime, endTime, available of the slot objects. -/
structure Slot where
  date : String
  startTime : String
  endTime : String
  available : Bool
deriving DecidableEq, Repr

/-- The JSON state record persisted by StateManager:
lastCheck (ISO string or null), previousSlots, notifiedSlots (slot keys). -/
structure PersistedState where
  lastCheck : Option String
  previousSlots : List Slot
  notifiedSlots : List String
deriving DecidableEq, Repr

/-- StateManager.getSlotKey: the template string date_startTime_endTime. -/
def getSlotKey (slot : Slot) : String :=
  slot.date ++ "_" ++ slot.startTime ++ "_" ++ slot.endTime

/-- The default state returned by StateManager.loadState when the state file
is absent or cannot be read or parsed. -/
def defaultState : PersistedState :=
  { lastCheck := none, previousSlots := [], notifiedSlots := [] }

/-- StateManager.loadState.  The stored argument describes the outcome of the
file read: none when the file does not exist, some none when reading or
JSON-parsing throws (the catch branch), and some (some st) when the file
parses to the state st.  Every failure falls through to defaultState after
logging a warning; the method never throws to its caller. -/
def loadState (stored : Option (Option PersistedState)) : PersistedState :=
  match stored with
  | some (some st) => st
  | _ => defaultState

/-- StateManager.isFirstRun: lastCheck is null. -/
def isFirstRun (s : PersistedState) : Bool :=
  s.lastCheck.isNone

/-- StateManager.findNewAvailabilities: build the set of keys of
previousSlots, keep the current slots whose key is not in it. -/
def findNewAvailabilities (s : PersistedState) (currentSlots : List Slot) : List Slot :=
  let previousKeys := s.previousSlots.map getSlotKey
  currentSlots.filter (fun slot => decide (getSlotKey slot ∉ previousKeys))

/-- StateManager.filterNotifiedSlots: build the set of already-notified keys,
keep the slots whose key is not in it. -/
def filterNotifiedSlots (s : PersistedState) (newSlots : List Slot) : List Slot :=
  newSlots.filter (fun slot => decide (getSlotKey slot ∉ s.notifiedSlots))

/-- StateManager.markAsNotified: push the keys of the given slots onto
notifiedSlots, then, when the list exceeds 1000 entries, keep only the last
1000 (the slice with negative argument in the source).  The method then calls
saveState; persistence is tracked by SMOp.run below. -/
def markAsNotified (slots : List Slot) (s : PersistedState) : PersistedState :=
  let newKeys := slots.map getSlotKey
  let appended := s.notifiedSlots ++ newKeys
  { s with notifiedSlots :=
      if 1000 < appended.length then appended.drop (appended.length - 1000)
      else appended }

/-- StateManager.updateState: set lastCheck to the current timestamp (passed
explicitly here, new Date toISOString in the source), replace previousSlots
with the current slots, then save. -/
def updateState (timestamp : String) (currentSlots : List Slot)
    (s : PersistedState) : PersistedState :=
  { s with lastCheck := some timestamp, previousSlots := currentSlots }

/-- The operations of the SlotDiffStore component (StateManager methods in
the scope of the design: isFirstRun, findNewAvailabilities,
filterNotifiedSlots, markAsNotified, updateState). -/
inductive SMOp where
  | findNew (currentSlots : List Slot)
  | filterNotified (newSlots : List Slot)
  | markNotified (slots : List Slot)
  | update (timestamp : String) (currentSlots : List Slot)
  | isFirst
deriving DecidableEq, Repr

/-- Effect of one StateManager method on the in-memory state, paired with
whether the method calls saveState.  Transcribed from the source:
findNewAvailabilities, filterNotifiedSlots and isFirstRun perform no
assignment to the state and never call saveState; markAsNotified and
updateState both mutate and end with saveState. -/
def SMOp.run : SMOp → PersistedState → PersistedState × Bool
  | SMOp.findNew _, s => (s, false)
  | SMOp.filterNotified _, s => (s, false)
  | SMOp.markNotified slots, s => (markAsNotified slots s, true)
  | SMOp.update t cur, s => (updateState t cur s, true)
  | SMOp.isFirst, s => (s, false)

/-- The NON_AVAILABLE_COOLDOWN_MINUTES constant of check.js. -/
def NON_AVAILABLE_COOLDOWN_MINUTES : Int := 30

/-- The last_notification.json record of check.js: timestamp of the last
sent notification (milliseconds since the epoch) and whether it reported
availability. -/
structure CooldownRecord where
  timestamp : Int
  hadAvailability : Bool
deriving DecidableEq, Repr

/-- shouldSendNonAvailableNotification of check.js.  The lastNotification
argument is the outcome of reading last_notification.json: none when the
file is missing or unreadable (both the early-return and the catch branch
return true), some record otherwise.  The source compares
(now - lastTime) / (1000 * 60) >= 30 with real-number division; this is
equivalent to the millisecond comparison used here, which avoids modelling
floating-point division. -/
def shouldSendNonAvailableNotification (lastNotification : Option CooldownRecord)
    (now : Int) : Bool :=
  match lastNotification with
  | none => true
  | some last =>
      if last.hadAvailability then true
      else decide (NON_AVAILABLE_COOLDOWN_MINUTES * (1000 * 60) ≤ now - last.timestamp)

/-- The two notification shapes checkReservations can send on its success
path: the availability alert and the no-availability check-in. -/
inductive NotificationKind where
  | availability
  | noAvailability
deriving DecidableEq, Repr

/-- The notification decision of checkReservations in check.js: when any
available slots exist, the availability notification is always sent; when
none exist, the no-availability notification is sent when the run is a
GitHub Actions run or the cooldown allows it, and skipped otherwise.  The
function takes the scrape result, the source flag, the cooldown-file content
and the current time; it does not read the StateManager state, which
checkReservations never consults. -/
def checkReservationsNotification (availableSlots : List Slot)
    (isGitHubActions : Bool) (lastNotification : Option CooldownRecord)
    (now : Int) : Option NotificationKind :=
  if 0 < availableSlots.length then
    some NotificationKind.availability
  else if isGitHubActions || shouldSendNonAvailableNotification lastNotification now then
    some NotificationKind.noAvailability
  else
    none

/-- A concrete available slot used in witnesses and counterexamples. -/
def slotA : Slot :=
  { date := "2025/11/20", startTime := "10:00", endTime := "11:00", available := true }

/-- A second concrete slot with a different key. -/
def slotB : Slot :=
  { date := "2025/11/21", startTime := "13:00", endTime := "14:00", available := true }

/-- C1: findNewAvailabilities returns exactly the subsequence of the current
slots whose key is not among the keys of the stored previousSlots, in input
order; when the key sets are disjoint the result is the whole input. -/
theorem findNewAvailabilities_spec (s : PersistedState) (currentSlots : List Slot) :
    findNewAvailabilities s currentSlots
        = currentSlots.filter
            (fun slot => decide (getSlotKey slot ∉ s.previousSlots.map getSlotKey))
    ∧ List.Sublist (findNewAvailabilities s currentSlots) currentSlots
    ∧ (∀ x, x ∈ findNewAvailabilities s currentSlots ↔
          x ∈ currentSlots ∧ getSlotKey x ∉ s.previousSlots.map getSlotKey)
    ∧ ((∀ x ∈ currentSlots, getSlotKey x ∉ s.previousSlots.map getSlotKey) →
          findNewAvailabilities s currentSlots = currentSlots) := by
  refine ⟨rfl, List.filter_sublist _, ?_, ?_⟩
  · intro x
    simp [findNewAvailabilities, List.mem_filter]
  · intro h
    apply List.filter_eq_self.mpr
    intro x hx
    simpa using h x hx

/-- C1 witness: on a state seeded with slotB, a current list holding only
slotA has disjoint keys, and the diff returns it whole. -/
theorem findNewAvailabilities_spec_witness :
    findNewAvailabilities { defaultState with previousSlots := [slotB] } [slotA] = [slotA] :=
  (findNewAvailabilities_spec { defaultState with previousSlots := [slotB] } [slotA]).2.2.2
    (by decide)

/-- C5: shouldSendNonAvailableNotification returns true whenever no prior
cooldown record exists, and whenever the prior record has
hadAvailability true, regardless of the elapsed time. -/
theorem shouldSendNonAvailableNotification_bypass (now t : Int) :
    shouldSendNonAvailableNotification none now = true
    ∧ shouldSendNonAvailableNotification
        (some { timestamp := t, hadAvailability := true }) now = true := by
  constructor <;> simp [shouldSendNonAvailableNotification]

/-- C6: filterNotifiedSlots returns a subsequence of its input, and no
returned slot has its key in the stored notifiedSlots. -/
theorem filterNotifiedSlots_spec (s : PersistedState) (newSlots : List Slot) :
    List.Sublist (filterNotifiedSlots s newSlots) newSlots
    ∧ ∀ x ∈ filterNotifiedSlots s newSlots, getSlotKey x ∉ s.notifiedSlots := by
  refine ⟨List.filter_sublist _, ?_⟩
  intro x hx
  have := (List.mem_filter.mp hx).2
  simpa using this

/-- C6 witness: with an empty notified list, slotA survives the filter and
its key is indeed not among the notified keys. -/
theorem filterNotifiedSlots_spec_witness :
    getSlotKey slotA ∉ defaultState.notifiedSlots :=
  (filterNotifiedSlots_spec defaultState [slotA]).2 slotA (by decide)

/-- C7: loadState returns the fresh default state, with lastCheck absent and
both lists empty, when the state file is absent (none) and when it is
unreadable or malformed (some none); it never propagates an error. -/
theorem loadState_defaults :
    loadState none = defaultState
    ∧ loadState (some none) = defaultState
    ∧ defaultState.lastCheck = none
    ∧ defaultState.previousSlots = []
    ∧ defaultState.notifiedSlots = [] :=
  ⟨rfl, rfl, rfl, rfl, rfl⟩

/-- C9: updateState only rewrites lastCheck and previousSlots; the
notifiedSlots history is untouched by every call. -/
theorem updateState_frame (timestamp : String) (currentSlots : List Slot)
    (s : PersistedState) :
    (updateState timestamp currentSlots s).notifiedSlots = s.notifiedSlots
    ∧ (updateState timestamp currentSlots s).lastCheck = some timestamp
    ∧ (updateState timestamp currentSlots s).previousSlots = currentSlots :=
  ⟨rfl, rfl, rfl⟩

/-- C4: with a prior record whose hadAvailability is false, the decision is
true exactly when at least NON_AVAILABLE_COOLDOWN_MINUTES minutes have
elapsed; 29 minutes after the record it is false, 31 minutes after, true. -/
theorem shouldSendNonAvailableNotification_cooldown (t now : Int) :
    (shouldSendNonAvailableNotification
        (some { timestamp := t, hadAvailability := false }) now = true ↔
      NON_AVAILABLE_COOLDOWN_MINUTES * (1000 * 60) ≤ now - t)
    ∧ shouldSendNonAvailableNotification
        (some { timestamp := t, hadAvailability := false }) (t + 29 * (1000 * 60)) = false
    ∧ shouldSendNonAvailableNotification
        (some { timestamp := t, hadAvailability := false }) (t + 31 * (1000 * 60)) = true := by
  refine ⟨?_, ?_, ?_⟩
  · simp [shouldSendNonAvailableNotification]
  · simp only [shouldSendNonAvailableNotification, NON_AVAILABLE_COOLDOWN_MINUTES]
    norm_num
  · simp only [shouldSendNonAvailableNotification, NON_AVAILABLE_COOLDOWN_MINUTES]
    norm_num

/-- C8: findNewAvailabilities and filterNotifiedSlots leave the state
unchanged and do not persist; among the SlotDiffStore operations, only
markAsNotified and updateState call saveState. -/
theorem slotDiffStore_queries_pure :
    (∀ (cur : List Slot) (s : PersistedState),
        SMOp.run (SMOp.findNew cur) s = (s, false))
    ∧ (∀ (l : List Slot) (s : PersistedState),
        SMOp.run (SMOp.filterNotified l) s = (s, false))
    ∧ (∀ (op : SMOp) (s : PersistedState), (SMOp.run op s).2 = true →
        (∃ slots, op = SMOp.markNotified slots)
        ∨ (∃ t cur, op = SMOp.update t cur)) := by
  refine ⟨fun _ _ => rfl, fun _ _ => rfl, ?_⟩
  intro op s h
  cases op with
  | findNew cur => exact absurd h (by simp [SMOp.run])
  | filterNotified l => exact absurd h (by simp [SMOp.run])
  | markNotified slots => exact Or.inl ⟨slots, rfl⟩
  | update t cur => exact Or.inr ⟨t, cur, rfl⟩
  | isFirst => exact absurd h (by simp [SMOp.run])

/-- C8 witness: the markNotified operation does persist, and the theorem
classifies it accordingly. -/
theorem slotDiffStore_queries_pure_witness :
    (∃ slots, SMOp.markNotified [slotA] = SMOp.markNotified slots)
    ∨ (∃ t cur, SMOp.markNotified [slotA] = SMOp.update t cur) :=
  slotDiffStore_queries_pure.2.2 (SMOp.markNotified [slotA]) defaultState rfl

/-- C3 counterexample: on the very first run (the freshly loaded default
state, isFirstRun true) with one available slot, checkReservations does send
the availability notification; the claimed baseline-only suppression does
not happen in the code, which never consults the StateManager state. -/
theorem firstRun_suppression_counterexample :
    isFirstRun (loadState none) = true
    ∧ checkReservationsNotification [slotA] false none 0
        = some NotificationKind.availability :=
  ⟨rfl, rfl⟩

/-- C3 amended: isFirstRun is true on the freshly loaded default state, but
the orchestration does not use it: whenever the observed available slots are
non-empty, the availability notification fires, first run or not, for every
source flag, cooldown record and time. -/
theorem firstRun_notification_amended :
    isFirstRun (loadState none) = true
    ∧ ∀ (availableSlots : List Slot) (isGitHubActions : Bool)
        (lastNotification : Option CooldownRecord) (now : Int),
        availableSlots ≠ [] →
        checkReservationsNotification availableSlots isGitHubActions lastNotification now
          = some NotificationKind.availability := by
  refine ⟨rfl, ?_⟩
  intro availableSlots gh lastNotification now h
  have hlen : 0 < availableSlots.length := List.length_pos.mpr h
  simp [checkReservationsNotification, hlen]

/-- C3 amended witness: a single available slot on a local first run with no
cooldown file triggers the availability notification. -/
theorem firstRun_notification_amended_witness :
    checkReservationsNotification [slotB] false none 0
      = some NotificationKind.availability :=
  firstRun_notification_amended.2 [slotB] false none 0 (by simp)

/-- Characterization of the notifiedSlots list after markAsNotified: the
appended list, truncated from the front to the last 1000 entries when it
exceeds 1000. -/
theorem markAsNotified_notifiedSlots (slots : List Slot) (s : PersistedState) :
    (markAsNotified slots s).notifiedSlots =
      if 1000 < s.notifiedSlots.length + slots.length
      then (s.notifiedSlots ++ slots.map getSlotKey).drop
            (s.notifiedSlots.length + slots.length - 1000)
      else s.notifiedSlots ++ slots.map getSlotKey := by
  simp [markAsNotified]

/-- One markAsNotified call always leaves at most 1000 notified keys. -/
theorem markAsNotified_length_le (slots : List Slot) (s : PersistedState) :
    (markAsNotified slots s).notifiedSlots.length ≤ 1000 := by
  rw [markAsNotified_notifiedSlots]
  split
  · simp only [List.length_drop, List.length_append, List.length_map]
    omega
  · simp only [List.length_append, List.length_map]
    omega

/-- The 1000-entry bound is preserved by any further run of markAsNotified
calls. -/
theorem foldl_markAsNotified_length_le (calls : List (List Slot)) (s : PersistedState)
    (h : s.notifiedSlots.length ≤ 1000) :
    ((calls.foldl (fun st sl => markAsNotified sl st) s).notifiedSlots).length ≤ 1000 := by
  induction calls generalizing s with
  | nil => simpa using h
  | cons c cs ih => exact ih (markAsNotified c s) (markAsNotified_length_le c s)

/-- C2: after markAsNotified the notified list has at most 1000 entries;
when the appended keys would exceed 1000 entries the excess is dropped from
the front, keeping exactly the most recent 1000 keys (a suffix of the
appended list of length exactly 1000); otherwise the keys are appended
whole; the bound holds after any non-empty sequence of calls. -/
theorem markAsNotified_bound (s : PersistedState) (slots : List Slot) :
    (markAsNotified slots s).notifiedSlots.length ≤ 1000
    ∧ (1000 < s.notifiedSlots.length + slots.length →
        (markAsNotified slots s).notifiedSlots
            = (s.notifiedSlots ++ slots.map getSlotKey).drop
                (s.notifiedSlots.length + slots.length - 1000)
        ∧ (markAsNotified slots s).notifiedSlots.length = 1000
        ∧ List.IsSuffix (markAsNotified slots s).notifiedSlots
            (s.notifiedSlots ++ slots.map getSlotKey))
    ∧ (s.notifiedSlots.length + slots.length ≤ 1000 →
        (markAsNotified slots s).notifiedSlots = s.notifiedSlots ++ slots.map getSlotKey)
    ∧ ∀ calls : List (List Slot), calls ≠ [] →
        ((calls.foldl (fun st sl => markAsNotified sl st) s).notifiedSlots).length ≤ 1000 := by
  refine ⟨markAsNotified_length_le slots s, ?_, ?_, ?_⟩
  · intro h
    have heq : (markAsNotified slots s).notifiedSlots
        = (s.notifiedSlots ++ slots.map getSlotKey).drop
            (s.notifiedSlots.length + slots.length - 1000) := by
      rw [markAsNotified_notifiedSlots, if_pos h]
    refine ⟨heq, ?_, ?_⟩
    · rw [heq]
      simp only [List.length_drop, List.length_append, List.length_map]
      omega
    · rw [heq]
      exact ⟨_, List.take_append_drop _ _⟩
  · intro h
    rw [markAsNotified_notifiedSlots, if_neg (by omega)]
  · intro calls hne
    match calls, hne with
    | c :: cs, _ =>
        exact foldl_markAsNotified_length_le cs (markAsNotified c s)
          (markAsNotified_length_le c s)

/-- C2 witness: appending 1001 keys to the empty history truncates to
exactly the last 1000; a single key is appended whole; one call keeps the
bound. -/
theorem markAsNotified_bound_witness :
    (markAsNotified (List.replicate 1001 slotA) defaultState).notifiedSlots.length = 1000
    ∧ (markAsNotified [slotA] defaultState).notifiedSlots
        = defaultState.notifiedSlots ++ [slotA].map getSlotKey
    ∧ (([[slotA]] : List (List Slot)).foldl
        (fun st sl => markAsNotified sl st) defaultState).notifiedSlots.length ≤ 1000 :=
  ⟨((markAsNotified_bound defaultState (List.replicate 1001 slotA)).2.1
      (by norm_num [defaultState])).2.1,
   (markAsNotified_bound defaultState [slotA]).2.2.1 (by norm_num [defaultState]),
   (markAsNotified_bound defaultState [slotA]).2.2.2 [[slotA]] (by simp)⟩

/-- C10: markAsNotified performs no deduplication: absent truncation, the
count of every key adds up across the append, a key already present that is
marked again occurs at least twice afterwards, and two successive calls with
the same non-empty slot list leave each of its keys present at least twice;
duplicates each occupy an entry of the bounded history. -/
theorem markAsNotified_no_dedup (s : PersistedState) (slots : List Slot) (x : Slot) :
    (s.notifiedSlots.length + slots.length ≤ 1000 →
        (markAsNotified slots s).notifiedSlots.count (getSlotKey x)
          = s.notifiedSlots.count (getSlotKey x)
            + (slots.map getSlotKey).count (getSlotKey x))
    ∧ (x ∈ slots → getSlotKey x ∈ s.notifiedSlots →
        s.notifiedSlots.length + slots.length ≤ 1000 →
        2 ≤ (markAsNotified slots s).notifiedSlots.count (getSlotKey x))
    ∧ (x ∈ slots → s.notifiedSlots.length + 2 * slots.length ≤ 1000 →
        2 ≤ (markAsNotified slots (markAsNotified slots s)).notifiedSlots.count
              (getSlotKey x)) := by
  have hkey : x ∈ slots → 0 < (slots.map getSlotKey).count (getSlotKey x) := fun hx =>
    List.count_pos_iff.mpr (List.mem_map_of_mem getSlotKey hx)
  have happ : s.notifiedSlots.length + slots.length ≤ 1000 →
      (markAsNotified slots s).notifiedSlots = s.notifiedSlots ++ slots.map getSlotKey :=
    fun h => by rw [markAsNotified_notifiedSlots, if_neg (by omega)]
  refine ⟨?_, ?_, ?_⟩
  · intro h
    rw [happ h, List.count_append]
  · intro hx hmem h
    rw [happ h, List.count_append]
    have h1 : 0 < s.notifiedSlots.count (getSlotKey x) := List.count_pos_iff.mpr hmem
    have h2 := hkey hx
    omega
  · intro hx h
    have h1 : s.notifiedSlots.length + slots.length ≤ 1000 := by omega
    have hlen1 : (markAsNotified slots s).notifiedSlots.length
        = s.notifiedSlots.length + slots.length := by
      rw [happ h1]
      simp
    have h2 : (markAsNotified slots s).notifiedSlots.length + slots.length ≤ 1000 := by
      omega
    have happ2 : (markAsNotified slots (markAsNotified slots s)).notifiedSlots
        = (markAsNotified slots s).notifiedSlots ++ slots.map getSlotKey := by
      rw [markAsNotified_notifiedSlots, if_neg (by omega)]
    rw [happ2, List.count_append, happ h1, List.count_append]
    have h3 := hkey hx
    omega

/-- C10 witness: marking slotA when its key is already recorded leaves the
key counted twice, and two successive calls from the empty history do the
same. -/
theorem markAsNotified_no_dedup_witness :
    2 ≤ (markAsNotified [slotA]
          { defaultState with notifiedSlots := [getSlotKey slotA] }).notifiedSlots.count
            (getSlotKey slotA)
    ∧ 2 ≤ (markAsNotified [slotA] (markAsNotified [slotA] defaultState)).notifiedSlots.count
            (getSlotKey slotA) :=
  ⟨(markAsNotified_no_dedup { defaultState with notifiedSlots := [getSlotKey slotA] }
      [slotA] slotA).2.1 (by decide) (by decide) (by decide),
   (markAsNotified_no_dedup defaultState [slotA] slotA).2.2 (by decide) (by decide)⟩
